import Mathlib

/-!
Verification of the datavisyn scatterplot core against its design spec.

The embedding follows src/src/Scatterplot.ts (single-axis class), the
dual-axis variant in the unnamed source part, and src/src/index.ts (the
compact variant holding checkResize and the selection setter).  Numeric
computation is over rationals; d3 linear scales are affine maps between a
two-point domain and a two-point range.  Helpers the sources import from
./quadtree and ./AScatterplot are not part of the provided sources; the
definitions standing in for them are marked "Modelled from the spec".
-/

namespace Datavisyn

/-- A d3 linear scale with a two-point domain and range; apply maps the
domain affinely onto the range (d3-scale scaleLinear as used throughout). -/
structure LinearScale where
  d0 : ℚ
  d1 : ℚ
  r0 : ℚ
  r1 : ℚ
deriving DecidableEq

def LinearScale.apply (s : LinearScale) (v : ℚ) : ℚ :=
  s.r0 + (v - s.d0) / (s.d1 - s.d0) * (s.r1 - s.r0)

def LinearScale.invert (s : LinearScale) (p : ℚ) : ℚ :=
  s.d0 + (p - s.r0) / (s.r1 - s.r0) * (s.d1 - s.d0)

/-- A d3 zoom transform: scale factor k and pixel translation (tx, ty). -/
structure ZoomTransform where
  k : ℚ
  tx : ℚ
  ty : ℚ
deriving DecidableEq

/-- Zoom axis mask (EScaleAxes of AScatterplot): which axes the zoom
transform applies to. -/
inductive EScaleAxes where
  | x
  | y
  | xy
deriving DecidableEq

def appliesToX : EScaleAxes → Bool
  | .x => true
  | .xy => true
  | .y => false

def appliesToY : EScaleAxes → Bool
  | .y => true
  | .xy => true
  | .x => false

/-- Modelled from the spec: AScatterplot.rescale is not under src/.  Spec
4.2 step 2: rescale each base scale by composing it with the current zoom
transform restricted to the configured axis mask (apply the transforms k
and x/y only to the axes the mask selects; identity on the others).  A
rescaled scale maps v to k * base(v) + t. -/
structure RescaledScale where
  base : LinearScale
  k : ℚ
  t : ℚ

def RescaledScale.apply (s : RescaledScale) (v : ℚ) : ℚ :=
  s.k * s.base.apply v + s.t

def RescaledScale.invert (s : RescaledScale) (p : ℚ) : ℚ :=
  s.base.invert ((p - s.t) / s.k)

def rescaleX (mask : EScaleAxes) (t : ZoomTransform) (s : LinearScale) : RescaledScale :=
  if appliesToX mask then ⟨s, t.k, t.tx⟩ else ⟨s, 1, 0⟩

def rescaleY (mask : EScaleAxes) (t : ZoomTransform) (s : LinearScale) : RescaledScale :=
  if appliesToY mask then ⟨s, t.k, t.ty⟩ else ⟨s, 1, 0⟩

/-- A d3 quadtree node: a leaf holds a chain of items sharing one position;
an internal node has four child slots; `empty` is an absent child slot
(d3 visits only present children, and visiting `empty` here renders and
counts nothing, which is the same thing). -/
inductive QTree (T : Type) where
  | empty
  | leaf (d : T) (rest : List T)
  | node (c0 c1 c2 c3 : QTree T)
deriving DecidableEq

def treeSize {T : Type} : QTree T → ℕ
  | .empty => 0
  | .leaf _ rest => 1 + rest.length
  | .node c0 c1 c2 c3 => treeSize c0 + treeSize c1 + treeSize c2 + treeSize c3

/-- Modelled from the spec: getFirstLeaf of ./quadtree is not under src/.
Spec 4.3: render one representative item from the subtree, the first item
encountered, not a centroid. -/
def getFirstLeaf {T : Type} : QTree T → Option T
  | .empty => none
  | .leaf d _ => some d
  | .node c0 c1 c2 c3 =>
    match getFirstLeaf c0 with
    | some d => some d
    | none =>
      match getFirstLeaf c1 with
      | some d => some d
      | none =>
        match getFirstLeaf c2 with
        | some d => some d
        | none => getFirstLeaf c3

/-- Modelled from the spec: hasOverlap of ./quadtree is not under src/; its
overlap semantics appears inline as isVisible in src/src/index.ts lines
322-331: disjoint iff the node box lies fully left/right/below/above the
window (wx0, wy0, wx1, wy1). -/
def hasOverlap (wx0 wy0 wx1 wy1 : ℚ) (x0 y0 x1 y1 : ℚ) : Bool :=
  !(decide (x1 < wx0) || decide (y1 < wy0) || decide (x0 > wx1) || decide (y0 > wy1))

/-- The per-render environment of Scatterplot.render (src/src/Scatterplot.ts
lines 143-175): normalized-to-pixel scales, zoom mask and live transform,
and the plot-area pixel extent. -/
structure RenderEnv where
  n2px : LinearScale
  n2py : LinearScale
  zoomMask : EScaleAxes
  transform : ZoomTransform
  boundsWidth : ℚ
  boundsHeight : ℚ

def n2pXLive (e : RenderEnv) : RescaledScale := rescaleX e.zoomMask e.transform e.n2px

def n2pYLive (e : RenderEnv) : RescaledScale := rescaleY e.zoomMask e.transform e.n2py

/-- isNodeVisible (src/src/Scatterplot.ts line 166): overlap of the node box
with the visible domain window obtained by inverse-mapping the plot pixel
corners through the live scales (y pixel axis inverted). -/
def isNodeVisible (e : RenderEnv) (x0 y0 x1 y1 : ℚ) : Bool :=
  hasOverlap ((n2pXLive e).invert 0) ((n2pYLive e).invert e.boundsHeight)
    ((n2pXLive e).invert e.boundsWidth) ((n2pYLive e).invert 0) x0 y0 x1 y1

/-- useAggregation (src/src/Scatterplot.ts lines 168-175): map the node box
corners to pixel space and aggregate when the longer side is under 5px. -/
def useAggregation (e : RenderEnv) (x0 y0 x1 y1 : ℚ) : Bool :=
  decide (max |(n2pXLive e).apply x0 - (n2pXLive e).apply x1|
    |(n2pYLive e).apply y0 - (n2pYLive e).apply y1| < 5)

/-- The items passed to renderer.render by visitTree (src/src/Scatterplot.ts
lines 314-331), in traversal order: an invisible node is aborted without
rendering; an aggregated node renders the first leaf of the subtree and
aborts; a leaf renders its whole chain; an internal node descends into its
children with halved bounds (d3-quadtree visit order). -/
def renderedItems {T : Type} (vis agg : ℚ → ℚ → ℚ → ℚ → Bool) :
    QTree T → ℚ → ℚ → ℚ → ℚ → List T
  | .empty, _, _, _, _ => []
  | .leaf d rest, x0, y0, x1, y1 =>
    if !(vis x0 y0 x1 y1) then []
    else if agg x0 y0 x1 y1 then (getFirstLeaf (QTree.leaf d rest)).toList
    else d :: rest
  | .node c0 c1 c2 c3, x0, y0, x1, y1 =>
    if !(vis x0 y0 x1 y1) then []
    else if agg x0 y0 x1 y1 then (getFirstLeaf (QTree.node c0 c1 c2 c3)).toList
    else
      renderedItems vis agg c0 x0 y0 ((x0 + x1) / 2) ((y0 + y1) / 2) ++
        renderedItems vis agg c1 ((x0 + x1) / 2) y0 x1 ((y0 + y1) / 2) ++
          renderedItems vis agg c2 x0 ((y0 + y1) / 2) ((x0 + x1) / 2) y1 ++
            renderedItems vis agg c3 ((x0 + x1) / 2) ((y0 + y1) / 2) x1 y1

/-- How many present nodes the traversal visits: an aborted or leaf node
counts once; a descended internal node counts itself plus its children. -/
def visitedNodes {T : Type} (vis agg : ℚ → ℚ → ℚ → ℚ → Bool) :
    QTree T → ℚ → ℚ → ℚ → ℚ → ℕ
  | .empty, _, _, _, _ => 0
  | .leaf _ _, _, _, _, _ => 1
  | .node c0 c1 c2 c3, x0, y0, x1, y1 =>
    if !(vis x0 y0 x1 y1) then 1
    else if agg x0 y0 x1 y1 then 1
    else
      1 + (visitedNodes vis agg c0 x0 y0 ((x0 + x1) / 2) ((y0 + y1) / 2) +
        visitedNodes vis agg c1 ((x0 + x1) / 2) y0 x1 ((y0 + y1) / 2) +
          visitedNodes vis agg c2 x0 ((y0 + y1) / 2) ((x0 + x1) / 2) y1 +
            visitedNodes vis agg c3 ((x0 + x1) / 2) ((y0 + y1) / 2) x1 y1)

theorem getFirstLeaf_eq_none_size {T : Type} :
    ∀ t : QTree T, getFirstLeaf t = none → treeSize t = 0 := by
  intro t
  induction t with
  | empty => intro _; rfl
  | leaf d rest => intro h; simp [getFirstLeaf] at h
  | node c0 c1 c2 c3 ih0 ih1 ih2 ih3 =>
    intro h
    simp only [getFirstLeaf] at h
    rcases h0 : getFirstLeaf c0 with _ | d0
    · rcases h1 : getFirstLeaf c1 with _ | d1
      · rcases h2 : getFirstLeaf c2 with _ | d2
        · rcases h3 : getFirstLeaf c3 with _ | d3
          · simp [treeSize, ih0 h0, ih1 h1, ih2 h2, ih3 h3]
          · rw [h0, h1, h2, h3] at h; simp at h
        · rw [h0, h1, h2] at h; simp at h
      · rw [h0, h1] at h; simp at h
    · rw [h0] at h; simp at h

theorem getFirstLeaf_isSome {T : Type} (t : QTree T) (h : 0 < treeSize t) :
    ∃ d, getFirstLeaf t = some d := by
  cases hf : getFirstLeaf t with
  | none => exact absurd (getFirstLeaf_eq_none_size t hf) (by omega)
  | some d => exact ⟨d, rfl⟩

/-- C2: a quadtree node whose normalized bounding box has no overlap with
the current visible domain window (computed by inverse-mapping the canvas
pixel corners through the live zoom-rescaled scales) contributes zero
render calls, is not descended into, and its subtree is never even offered
to the aggregation predicate (the conclusion holds for every aggregation
predicate). -/
theorem culling_aborts_without_render {T : Type} (e : RenderEnv)
    (agg : ℚ → ℚ → ℚ → ℚ → Bool) (t : QTree T) (x0 y0 x1 y1 : ℚ)
    (h : isNodeVisible e x0 y0 x1 y1 = false) :
    renderedItems (isNodeVisible e) agg t x0 y0 x1 y1 = [] ∧
      visitedNodes (isNodeVisible e) agg t x0 y0 x1 y1 ≤ 1 := by
  cases t with
  | empty => simp [renderedItems, visitedNodes]
  | leaf d rest => simp [renderedItems, visitedNodes, h]
  | node c0 c1 c2 c3 => simp [renderedItems, visitedNodes, h]

/-- Environment at identity zoom on a 100 by 100 plot area: normalized
x-domain [0,100] onto pixel range [0,100], y-domain [0,100] onto the
inverted pixel range [100,0], as the DIRTY render sets them. -/
def plainEnv : RenderEnv :=
  { n2px := ⟨0, 100, 0, 100⟩
    n2py := ⟨0, 100, 100, 0⟩
    zoomMask := .xy
    transform := ⟨1, 0, 0⟩
    boundsWidth := 100
    boundsHeight := 100 }

theorem culling_aborts_without_render_witness :
    isNodeVisible plainEnv 200 200 300 300 = false ∧
      (renderedItems (isNodeVisible plainEnv) (useAggregation plainEnv)
          (QTree.leaf (0 : ℕ) []) 200 200 300 300 = [] ∧
        visitedNodes (isNodeVisible plainEnv) (useAggregation plainEnv)
          (QTree.leaf (0 : ℕ) []) 200 200 300 300 ≤ 1) :=
  ⟨by norm_num [isNodeVisible, hasOverlap, n2pXLive, n2pYLive, rescaleX, rescaleY,
      appliesToX, appliesToY, plainEnv, RescaledScale.invert, RescaledScale.apply,
      LinearScale.invert, LinearScale.apply],
    culling_aborts_without_render plainEnv (useAggregation plainEnv)
      (QTree.leaf (0 : ℕ) []) 200 200 300 300
      (by norm_num [isNodeVisible, hasOverlap, n2pXLive, n2pYLive, rescaleX, rescaleY,
        appliesToX, appliesToY, plainEnv, RescaledScale.invert, RescaledScale.apply,
        LinearScale.invert, LinearScale.apply])⟩

/-- C1 (amended): for every visited node that passes the visibility test
and whose pixel-mapped bounding box spans strictly less than 5 pixels on
its longer side, the traversal emits exactly one render call for the whole
subtree, carrying the first leaf item encountered, and aborts descent --
independent of how many points the subtree holds. -/
theorem aggregation_renders_exactly_one {T : Type} (e : RenderEnv) (t : QTree T)
    (x0 y0 x1 y1 : ℚ)
    (hvis : isNodeVisible e x0 y0 x1 y1 = true)
    (hagg : useAggregation e x0 y0 x1 y1 = true)
    (hne : 0 < treeSize t) :
    renderedItems (isNodeVisible e) (useAggregation e) t x0 y0 x1 y1 =
        (getFirstLeaf t).toList ∧
      (renderedItems (isNodeVisible e) (useAggregation e) t x0 y0 x1 y1).length = 1 := by
  obtain ⟨d, hd⟩ := getFirstLeaf_isSome t hne
  cases t with
  | empty => simp [treeSize] at hne
  | leaf d0 rest =>
    refine ⟨by simp [renderedItems, hvis, hagg], ?_⟩
    simp [renderedItems, hvis, hagg, getFirstLeaf]
  | node c0 c1 c2 c3 =>
    refine ⟨by simp [renderedItems, hvis, hagg], ?_⟩
    simp [renderedItems, hvis, hagg, hd]

/-- A two-point cluster used as counterexample input. -/
def twoPointCluster : QTree ℕ :=
  QTree.node (QTree.leaf 0 []) (QTree.leaf 1 []) QTree.empty QTree.empty

/-- C1 counterexample: a visible 2-point cluster whose bounding box projects
to exactly 5 pixels on both axes (so within the ≤ 5px band claimed) emits
two render calls, not one: the aggregation threshold of the code is strict
(max extent < 5), so the ≤ form of the claim fails at the boundary. -/
theorem aggregation_at_exactly_five_px_two_calls :
    (|(n2pXLive plainEnv).apply 0 - (n2pXLive plainEnv).apply 5| = 5 ∧
      |(n2pYLive plainEnv).apply 0 - (n2pYLive plainEnv).apply 5| = 5 ∧
      isNodeVisible plainEnv 0 0 5 5 = true) ∧
    renderedItems (isNodeVisible plainEnv) (useAggregation plainEnv)
      twoPointCluster 0 0 5 5 = [0, 1] := by
  norm_num [renderedItems, twoPointCluster, getFirstLeaf, isNodeVisible, hasOverlap,
    useAggregation, n2pXLive, n2pYLive, rescaleX, rescaleY, appliesToX, appliesToY,
    plainEnv, RescaledScale.invert, RescaledScale.apply, LinearScale.invert,
    LinearScale.apply, max_def, abs_eq_max_neg]

theorem aggregation_renders_exactly_one_witness :
    (isNodeVisible plainEnv 0 0 2 2 = true ∧
      useAggregation plainEnv 0 0 2 2 = true ∧
      0 < treeSize twoPointCluster) ∧
    (renderedItems (isNodeVisible plainEnv) (useAggregation plainEnv)
        twoPointCluster 0 0 2 2 = (getFirstLeaf twoPointCluster).toList ∧
      (renderedItems (isNodeVisible plainEnv) (useAggregation plainEnv)
        twoPointCluster 0 0 2 2).length = 1) :=
  ⟨⟨by norm_num [isNodeVisible, hasOverlap, n2pXLive, n2pYLive, rescaleX, rescaleY,
      appliesToX, appliesToY, plainEnv, RescaledScale.invert, RescaledScale.apply,
      LinearScale.invert, LinearScale.apply],
    by norm_num [useAggregation, n2pXLive, n2pYLive, rescaleX, rescaleY, appliesToX,
      appliesToY, plainEnv, RescaledScale.apply, LinearScale.apply, max_def,
      abs_eq_max_neg],
    by decide⟩,
    aggregation_renders_exactly_one plainEnv twoPointCluster 0 0 2 2
      (by norm_num [isNodeVisible, hasOverlap, n2pXLive, n2pYLive, rescaleX, rescaleY,
        appliesToX, appliesToY, plainEnv, RescaledScale.invert, RescaledScale.apply,
        LinearScale.invert, LinearScale.apply])
      (by norm_num [useAggregation, n2pXLive, n2pYLive, rescaleX, rescaleY, appliesToX,
        appliesToY, plainEnv, RescaledScale.apply, LinearScale.apply, max_def,
        abs_eq_max_neg])
      (by decide)⟩

/-- Render trigger reasons (ERenderReason of AScatterplot): the cases the
render switch distinguishes, plus the commented-out PERFORM_SCALE and
PERFORM_SCALE_AND_TRANSLATE that fall to the default branch. -/
inductive ERenderReason where
  | DIRTY
  | SELECTION_CHANGED
  | PERFORM_TRANSLATE
  | PERFORM_SCALE
  | PERFORM_SCALE_AND_TRANSLATE
  | AFTER_TRANSLATE
  | AFTER_SCALE
  | AFTER_SCALE_AND_TRANSLATE
deriving DecidableEq

/-- ERenderReason[reason]: the string name emitted with the render event
(src/src/Scatterplot.ts line 150). -/
def reasonName : ERenderReason → String
  | .DIRTY => "DIRTY"
  | .SELECTION_CHANGED => "SELECTION_CHANGED"
  | .PERFORM_TRANSLATE => "PERFORM_TRANSLATE"
  | .PERFORM_SCALE => "PERFORM_SCALE"
  | .PERFORM_SCALE_AND_TRANSLATE => "PERFORM_SCALE_AND_TRANSLATE"
  | .AFTER_TRANSLATE => "AFTER_TRANSLATE"
  | .AFTER_SCALE => "AFTER_SCALE"
  | .AFTER_SCALE_AND_TRANSLATE => "AFTER_SCALE_AND_TRANSLATE"

/-- The ephemeral transform delta passed to render. -/
structure TransformDelta where
  x : ℚ
  y : ℚ
  kx : ℚ
  ky : ℚ
deriving DecidableEq

/-- The delta render is invoked with when none is supplied:
{x: 0, y: 0, kx: 1, ky: 1} (src/src/Scatterplot.ts line 137). -/
def defaultDelta : TransformDelta := ⟨0, 0, 1, 1⟩

/-- Observable side effects of one render invocation, in program order. -/
inductive RenderAction where
  | updateCanvasSize
  | emitRender (reason : String) (delta : TransformDelta)
  | setScaleRanges
  | clearSettleTimer
  | rasterCopy (x y kx ky : ℚ)
  | swapLayers
  | drawSelectionLayer
  | drawAxes
  | drawDataLayer
  | drawSecondaryLayer
  | armSettleTimer (delay : ℚ)
deriving DecidableEq

/-- The mutable plot state the render switch reads and writes: canvas
drawing-buffer and client dimensions, the settle-timer handle (zoomHandle
is a timer id when set, modelled as a Bool), the flags deciding whether
renderSelection and the secondary pass do anything, and the configured
settle delay (baseProps.zoom.delay). -/
structure RenderState where
  canvasWidth : ℕ
  canvasHeight : ℕ
  clientWidth : ℕ
  clientHeight : ℕ
  zoomHandle : Bool
  selectAble : Bool
  hasExtras : Bool
  dualAxis : Bool
  zoomDelay : ℚ
deriving DecidableEq

/-- clearAutoZoomRedraw (src/src/Scatterplot.ts lines 236-242): cancel the
pending settle timer if one is set; idempotent when none is. -/
def clearAutoZoomRedraw (s : RenderState) : RenderState × List RenderAction :=
  if s.zoomHandle then ({ s with zoomHandle := false }, [RenderAction.clearSettleTimer])
  else (s, [])

/-- renderSelection (src/src/Scatterplot.ts lines 203-206): a no-op unless
the plot is selectable or has extras. -/
def selectionActions (s : RenderState) : List RenderAction :=
  if !s.selectAble && !s.hasExtras then [] else [RenderAction.drawSelectionLayer]

/-- The dual-axis variant additionally renders the secondary tree where the
single-axis one renders only the data layer. -/
def secondaryActions (s : RenderState) : List RenderAction :=
  if s.dualAxis then [RenderAction.drawSecondaryLayer] else []

/-- The render switch (src/src/Scatterplot.ts lines 137-275 and the
dual-axis twin), assuming the resize check already passed: emit the render
event, recompute scale ranges only on DIRTY, then dispatch on the reason. -/
def renderBody (s : RenderState) (reason : ERenderReason) (delta : TransformDelta) :
    RenderState × List RenderAction :=
  let emitA := [RenderAction.emitRender (reasonName reason) delta]
  let rangeA := if reason = ERenderReason.DIRTY then [RenderAction.setScaleRanges] else []
  match reason with
  | .PERFORM_TRANSLATE =>
    let (s1, c) := clearAutoZoomRedraw s
    ({ s1 with zoomHandle := true },
      emitA ++ rangeA ++ c ++
        [RenderAction.rasterCopy delta.x delta.y delta.kx delta.ky, RenderAction.swapLayers] ++
          selectionActions s ++ [RenderAction.drawAxes, RenderAction.armSettleTimer s.zoomDelay])
  | .SELECTION_CHANGED => (s, emitA ++ rangeA ++ selectionActions s)
  | .AFTER_TRANSLATE =>
    let (s1, c) := clearAutoZoomRedraw s
    (s1, emitA ++ rangeA ++ c ++ [RenderAction.drawDataLayer] ++ secondaryActions s)
  | .AFTER_SCALE_AND_TRANSLATE => (s, emitA ++ rangeA)
  | .AFTER_SCALE => (s, emitA ++ rangeA)
  | _ =>
    let (s1, c) := clearAutoZoomRedraw s
    (s1, emitA ++ rangeA ++ c ++ [RenderAction.drawDataLayer] ++ secondaryActions s ++
      [RenderAction.drawAxes] ++ selectionActions s)

/-- checkResize (src/src/index.ts lines 189-199): compare drawing-buffer
dimensions against client dimensions. -/
def checkResize (s : RenderState) : Bool :=
  decide (s.canvasWidth ≠ s.clientWidth) || decide (s.canvasHeight ≠ s.clientHeight)

/-- render (src/src/Scatterplot.ts line 137): if the resize check fires, the
buffer dimensions are synced and resized() re-renders with DIRTY (the inner
render passes its resize check since the dimensions were just synced, so it
is exactly renderBody); otherwise proceed with the given reason. -/
def render (s : RenderState) (reason : ERenderReason) (delta : TransformDelta) :
    RenderState × List RenderAction :=
  if checkResize s then
    let s1 := { s with canvasWidth := s.clientWidth, canvasHeight := s.clientHeight }
    let (s2, acts) := renderBody s1 ERenderReason.DIRTY defaultDelta
    (s2, RenderAction.updateCanvasSize :: acts)
  else renderBody s reason delta

theorem render_of_synced (s : RenderState) (reason : ERenderReason)
    (delta : TransformDelta) (h : checkResize s = false) :
    render s reason delta = renderBody s reason delta := by
  simp [render, h]

/-- The settle timer elapsing with no further gesture: if a handle is
pending, the scheduled this.render(AFTER_TRANSLATE) callback runs
(src/src/Scatterplot.ts line 253); otherwise nothing happens. -/
def fireSettle (s : RenderState) : RenderState × List RenderAction :=
  if s.zoomHandle then render s ERenderReason.AFTER_TRANSLATE defaultDelta else (s, [])

/-- The render actions that are event emissions. -/
def emitsOf (l : List RenderAction) : List RenderAction :=
  l.filter fun a => match a with
    | RenderAction.emitRender _ _ => true
    | _ => false

theorem emitsOf_renderBody (s : RenderState) (reason : ERenderReason)
    (delta : TransformDelta) :
    emitsOf (renderBody s reason delta).2 =
      [RenderAction.emitRender (reasonName reason) delta] := by
  cases reason <;> cases hz : s.zoomHandle <;> cases hs : s.selectAble <;>
    cases he : s.hasExtras <;> cases hd : s.dualAxis <;>
      simp [renderBody, clearAutoZoomRedraw, selectionActions, secondaryActions,
        emitsOf, hz, hs, he, hd]

theorem head_renderBody (s : RenderState) (reason : ERenderReason)
    (delta : TransformDelta) :
    (renderBody s reason delta).2.head? =
      some (RenderAction.emitRender (reasonName reason) delta) := by
  cases reason <;> cases hz : s.zoomHandle <;>
    simp [renderBody, clearAutoZoomRedraw, hz]

/-- C4: a PERFORM_TRANSLATE render first cancels any pending settle timer,
raster-copies the data layer with the delta and swaps the two canvas
layers, redraws only the selection layer and axes (no data layer, no
data-index pass), and arms the settle timer with the configured zoom
delay; letting that timer fire yields exactly one AFTER_TRANSLATE render
that clears the handle and redraws only the data (plus secondary, in
dual-axis) layer, and a second elapse does nothing. -/
theorem perform_translate_pipeline (s : RenderState) (delta : TransformDelta)
    (h : checkResize s = false) :
    (render s ERenderReason.PERFORM_TRANSLATE delta).2 =
        RenderAction.emitRender "PERFORM_TRANSLATE" delta ::
          ((if s.zoomHandle then [RenderAction.clearSettleTimer] else []) ++
            ([RenderAction.rasterCopy delta.x delta.y delta.kx delta.ky,
                RenderAction.swapLayers] ++
              (selectionActions s ++
                [RenderAction.drawAxes, RenderAction.armSettleTimer s.zoomDelay]))) ∧
      RenderAction.drawDataLayer ∉ (render s ERenderReason.PERFORM_TRANSLATE delta).2 ∧
      RenderAction.drawSecondaryLayer ∉ (render s ERenderReason.PERFORM_TRANSLATE delta).2 ∧
      (render s ERenderReason.PERFORM_TRANSLATE delta).1.zoomHandle = true ∧
      (fireSettle (render s ERenderReason.PERFORM_TRANSLATE delta).1).2 =
        RenderAction.emitRender "AFTER_TRANSLATE" defaultDelta ::
          RenderAction.clearSettleTimer :: RenderAction.drawDataLayer ::
            secondaryActions s ∧
      (fireSettle (render s ERenderReason.PERFORM_TRANSLATE delta).1).1.zoomHandle = false ∧
      (fireSettle (fireSettle (render s ERenderReason.PERFORM_TRANSLATE delta).1).1).2 = [] := by
  rw [render_of_synced s ERenderReason.PERFORM_TRANSLATE delta h]
  cases hz : s.zoomHandle <;>
    simp_all [renderBody, clearAutoZoomRedraw, fireSettle, render, checkResize,
      selectionActions, secondaryActions, reasonName]

theorem perform_translate_pipeline_witness :
    checkResize
        { canvasWidth := 300, canvasHeight := 200, clientWidth := 300, clientHeight := 200,
          zoomHandle := false, selectAble := true, hasExtras := false, dualAxis := false,
          zoomDelay := 300 } = false ∧
      (render
          { canvasWidth := 300, canvasHeight := 200, clientWidth := 300, clientHeight := 200,
            zoomHandle := false, selectAble := true, hasExtras := false, dualAxis := false,
            zoomDelay := 300 } ERenderReason.PERFORM_TRANSLATE ⟨20, 0, 1, 1⟩).1.zoomHandle =
        true :=
  ⟨by decide,
    (perform_translate_pipeline
      { canvasWidth := 300, canvasHeight := 200, clientWidth := 300, clientHeight := 200,
        zoomHandle := false, selectAble := true, hasExtras := false, dualAxis := false,
        zoomDelay := 300 } ⟨20, 0, 1, 1⟩ (by decide)).2.2.2.1⟩

/-- A concrete synced render state used for counterexamples and witnesses. -/
def syncedState : RenderState :=
  { canvasWidth := 300, canvasHeight := 200, clientWidth := 300, clientHeight := 200,
    zoomHandle := false, selectAble := true, hasExtras := false, dualAxis := false,
    zoomDelay := 300 }

/-- C7 counterexample: at a concrete state, an AFTER_SCALE render emits the
render event and then draws nothing at all, while the default full-redraw
path does draw the data layer: the AFTER_SCALE cases break out of the
switch instead of falling through to the default full redraw. -/
theorem after_scale_not_full_redraw :
    (render syncedState ERenderReason.AFTER_SCALE defaultDelta).2 =
        [RenderAction.emitRender "AFTER_SCALE" defaultDelta] ∧
      RenderAction.drawDataLayer ∈ (render syncedState ERenderReason.PERFORM_SCALE defaultDelta).2 ∧
      RenderAction.drawDataLayer ∉ (render syncedState ERenderReason.AFTER_SCALE defaultDelta).2 := by
  decide

/-- C7 (amended): for every plot state passing the resize check, a render
with reason AFTER_SCALE or AFTER_SCALE_AND_TRANSLATE is a pure no-op
beyond the render event: no layer is drawn, no timer is touched, and the
state is unchanged; the branch does NOT fall through to the default
full-redraw path. -/
theorem after_scale_reasons_noop (s : RenderState) (delta : TransformDelta)
    (h : checkResize s = false) :
    (render s ERenderReason.AFTER_SCALE delta).2 =
        [RenderAction.emitRender "AFTER_SCALE" delta] ∧
      (render s ERenderReason.AFTER_SCALE delta).1 = s ∧
      (render s ERenderReason.AFTER_SCALE_AND_TRANSLATE delta).2 =
        [RenderAction.emitRender "AFTER_SCALE_AND_TRANSLATE" delta] ∧
      (render s ERenderReason.AFTER_SCALE_AND_TRANSLATE delta).1 = s := by
  rw [render_of_synced _ _ _ h, render_of_synced _ _ _ h]
  simp [renderBody, reasonName]

theorem after_scale_reasons_noop_witness :
    checkResize syncedState = false ∧
      (render syncedState ERenderReason.AFTER_SCALE defaultDelta).2 =
        [RenderAction.emitRender "AFTER_SCALE" defaultDelta] :=
  ⟨by decide, (after_scale_reasons_noop syncedState defaultDelta (by decide)).1⟩

/-- C8: whenever the drawing-buffer dimensions differ from the client
dimensions at the start of a render, the buffer is synced, nothing is
drawn and no range is set for the original reason (the whole trace is the
resize followed by a fresh DIRTY render whose resize check passes), for
every render reason. -/
theorem resize_aborts_render (s : RenderState) (reason : ERenderReason)
    (delta : TransformDelta) (h : checkResize s = true) :
    (render s reason delta).2 =
        RenderAction.updateCanvasSize ::
          (renderBody
              { s with canvasWidth := s.clientWidth, canvasHeight := s.clientHeight }
              ERenderReason.DIRTY defaultDelta).2 ∧
      (render s reason delta).1.canvasWidth = s.clientWidth ∧
      (render s reason delta).1.canvasHeight = s.clientHeight ∧
      emitsOf (render s reason delta).2 = [RenderAction.emitRender "DIRTY" defaultDelta] ∧
      checkResize
        { s with canvasWidth := s.clientWidth, canvasHeight := s.clientHeight } = false := by
  have hb := emitsOf_renderBody
    { s with canvasWidth := s.clientWidth, canvasHeight := s.clientHeight }
    ERenderReason.DIRTY defaultDelta
  refine ⟨by simp [render, h], ?_, ?_, ?_, by simp [checkResize]⟩
  · simp [render, h, renderBody, clearAutoZoomRedraw]
    split_ifs <;> rfl
  · simp [render, h, renderBody, clearAutoZoomRedraw]
    split_ifs <;> rfl
  · simp [render, h, emitsOf] at hb ⊢
    exact hb

theorem resize_aborts_render_witness :
    checkResize
        { canvasWidth := 10, canvasHeight := 10, clientWidth := 300, clientHeight := 200,
          zoomHandle := false, selectAble := true, hasExtras := false, dualAxis := false,
          zoomDelay := 300 } = true ∧
      emitsOf
          (render
            { canvasWidth := 10, canvasHeight := 10, clientWidth := 300, clientHeight := 200,
              zoomHandle := false, selectAble := true, hasExtras := false, dualAxis := false,
              zoomDelay := 300 } ERenderReason.SELECTION_CHANGED defaultDelta).2 =
        [RenderAction.emitRender "DIRTY" defaultDelta] :=
  ⟨by decide,
    (resize_aborts_render
      { canvasWidth := 10, canvasHeight := 10, clientWidth := 300, clientHeight := 200,
        zoomHandle := false, selectAble := true, hasExtras := false, dualAxis := false,
        zoomDelay := 300 } ERenderReason.SELECTION_CHANGED defaultDelta
      (by decide)).2.2.2.1⟩

/-- C10: a render that passes the resize check emits the render event --
carrying the reason's string name and the transform delta -- exactly once
and as its very first action, before any drawing or scale-range mutation,
for every reason including AFTER_SCALE and AFTER_SCALE_AND_TRANSLATE; a
render aborted by the resize check emits nothing for its original reason,
only the replacement DIRTY render's event. -/
theorem emit_render_exactly_once (s : RenderState) (reason : ERenderReason)
    (delta : TransformDelta) :
    (checkResize s = false →
      (render s reason delta).2.head? =
          some (RenderAction.emitRender (reasonName reason) delta) ∧
        emitsOf (render s reason delta).2 =
          [RenderAction.emitRender (reasonName reason) delta]) ∧
    (checkResize s = true →
      (render s reason delta).2.head? = some RenderAction.updateCanvasSize ∧
        emitsOf (render s reason delta).2 =
          [RenderAction.emitRender "DIRTY" defaultDelta]) := by
  constructor
  · intro h
    rw [render_of_synced s reason delta h]
    exact ⟨head_renderBody s reason delta, emitsOf_renderBody s reason delta⟩
  · intro h
    have hb := emitsOf_renderBody
      { s with canvasWidth := s.clientWidth, canvasHeight := s.clientHeight }
      ERenderReason.DIRTY defaultDelta
    refine ⟨by simp [render, h], ?_⟩
    simp [render, h, emitsOf] at hb ⊢
    exact hb

theorem emit_render_exactly_once_witness :
    checkResize syncedState = false ∧
      (render syncedState ERenderReason.AFTER_SCALE defaultDelta).2.head? =
        some (RenderAction.emitRender (reasonName ERenderReason.AFTER_SCALE) defaultDelta) :=
  ⟨by decide,
    ((emit_render_exactly_once syncedState ERenderReason.AFTER_SCALE defaultDelta).1
      (by decide)).1⟩

/-- A d3 continuous scale with an abstract transfer shape: linear scales
take the identity shape, log and pow scales a monotone transform; apply
interpolates the transformed value across the two-point domain onto the
range, which is how d3-scale continuous scales map values.  copy().range
keeps domain and shape and replaces only the range. -/
structure ContinuousScale where
  shape : ℚ → ℚ
  d0 : ℚ
  d1 : ℚ
  r0 : ℚ
  r1 : ℚ

def ContinuousScale.apply (s : ContinuousScale) (v : ℚ) : ℚ :=
  s.r0 + (s.shape v - s.shape s.d0) / (s.shape s.d1 - s.shape s.d0) * (s.r1 - s.r0)

def ContinuousScale.copyWithRange (s : ContinuousScale) (a b : ℚ) : ContinuousScale :=
  { s with r0 := a, r1 := b }

/-- The result of quadtree(data, x, y): every point of data is inserted at
position (x d, y d), and the tree keeps its coordinate accessors, exposed
as tree.x() and tree.y(). -/
structure BuiltTree (T : Type) where
  xfun : T → ℚ
  yfun : T → ℚ
  data : List T

/-- The scale-related state of a Scatterplot instance: accessors, domain
scales, normalized2pixel scales, zoom mask and live transform, click
radius, and the two quadtrees. -/
structure ScatterState (T : Type) where
  x : T → ℚ
  y : T → ℚ
  xscale : ContinuousScale
  yscale : ContinuousScale
  n2px : LinearScale
  n2py : LinearScale
  zoomMask : EScaleAxes
  transform : ZoomTransform
  clickRadius : ℚ
  tree : BuiltTree T
  selectionTree : BuiltTree T

/-- The normalized range the quadtree is defined on
(src/src/Scatterplot.ts line 50). -/
def DEFAULT_NORMALIZED_RANGE : ℚ × ℚ := (0, 100)

/-- Scatterplot constructor lines 86-87: the normalized2pixel domains are
the default normalized range, stretched by the aspect-ratio factor on x;
the d3 default pixel range [0, 1] stands until the first DIRTY render. -/
def initialNormalized2Pixel (aspect : ℚ) : LinearScale × LinearScale :=
  (⟨DEFAULT_NORMALIZED_RANGE.1 * aspect, DEFAULT_NORMALIZED_RANGE.2 * aspect, 0, 1⟩,
    ⟨DEFAULT_NORMALIZED_RANGE.1, DEFAULT_NORMALIZED_RANGE.2, 0, 1⟩)

/-- setDataImpl (src/src/Scatterplot.ts lines 98-106): build the quadtree
on normalized coordinates: each point d is inserted at
(domain2normalizedX (x d), domain2normalizedY (y d)), where the
normalizing scales are copies of the user domain scales with their ranges
replaced by the normalized2pixel domains. -/
def setDataImpl {T : Type} (st : ScatterState T) (data : List T) : ScatterState T :=
  let domain2normalizedX := st.xscale.copyWithRange st.n2px.d0 st.n2px.d1
  let domain2normalizedY := st.yscale.copyWithRange st.n2py.d0 st.n2py.d1
  { st with tree :=
      { xfun := fun d => domain2normalizedX.apply (st.x d)
        yfun := fun d => domain2normalizedY.apply (st.y d)
        data := data } }

/-- The data setter (src/src/Scatterplot.ts lines 108-112): rebuild the
primary tree, replace the selection tree with an empty quadtree over the
new tree's coordinate accessors, then trigger a DIRTY render. -/
def setData {T : Type} (st : ScatterState T) (data : List T) :
    ScatterState T × ERenderReason :=
  let st1 := setDataImpl st data
  ({ st1 with selectionTree :=
      { xfun := st1.tree.xfun, yfun := st1.tree.yfun, data := [] } },
    ERenderReason.DIRTY)

/-- The DIRTY branch of render (src/src/Scatterplot.ts lines 152-157): set
the domain scales' pixel ranges from the plot bounds (y inverted, pixel
axis pointing down) and copy them onto the normalized2pixel scales. -/
def applyDirtyRanges {T : Type} (st : ScatterState T) (boundsW boundsH : ℚ) :
    ScatterState T :=
  { st with
    xscale := st.xscale.copyWithRange 0 boundsW
    yscale := st.yscale.copyWithRange boundsH 0
    n2px := { st.n2px with r0 := 0, r1 := boundsW }
    n2py := { st.n2py with r0 := boundsH, r1 := 0 } }

/-- A state differing from st only in the domain scales' pixel ranges, the
normalized-to-pixel ranges, and the zoom transform. -/
def withPixelAndZoom {T : Type} (st : ScatterState T) (xsr ysr nxr nyr : ℚ × ℚ)
    (t : ZoomTransform) : ScatterState T :=
  { st with
    xscale := st.xscale.copyWithRange xsr.1 xsr.2
    yscale := st.yscale.copyWithRange ysr.1 ysr.2
    n2px := { st.n2px with r0 := nxr.1, r1 := nxr.2 }
    n2py := { st.n2py with r0 := nyr.1, r1 := nyr.2 }
    transform := t }

/-- C3: the primary index is built on normalized coordinates at data-set
time: every point d is stored at (dx (x d), dy (y d)) with dx and dy the
user domain scales copied and re-ranged onto the normalized2pixel domains
(which the constructor sets to [0,100] on y and [0,100] stretched by the
aspect factor on x); each point of the data list is inserted exactly once;
and the stored coordinates follow the domain-scale shape but are invariant
under every change of domain-scale pixel range, normalized-to-pixel range,
or zoom transform. -/
theorem index_built_on_normalized_coords {T : Type} (st : ScatterState T)
    (data : List T) :
    ((setDataImpl st data).tree.xfun =
        fun d => (st.xscale.copyWithRange st.n2px.d0 st.n2px.d1).apply (st.x d)) ∧
      ((setDataImpl st data).tree.yfun =
        fun d => (st.yscale.copyWithRange st.n2py.d0 st.n2py.d1).apply (st.y d)) ∧
      (setDataImpl st data).tree.data = data ∧
      (∀ xsr ysr nxr nyr : ℚ × ℚ, ∀ t : ZoomTransform,
        (setDataImpl (withPixelAndZoom st xsr ysr nxr nyr t) data).tree =
          (setDataImpl st data).tree) ∧
      (∀ a : ℚ,
        (initialNormalized2Pixel a).1.d0 = 0 ∧
          (initialNormalized2Pixel a).1.d1 = 100 * a ∧
          (initialNormalized2Pixel a).2.d0 = 0 ∧
          (initialNormalized2Pixel a).2.d1 = 100) := by
  refine ⟨rfl, rfl, rfl, fun xsr ysr nxr nyr t => rfl, fun a => ?_⟩
  simp [initialNormalized2Pixel, DEFAULT_NORMALIZED_RANGE]

/-- C9: every data replacement through the data setter rebuilds the primary
tree and replaces the selection tree with an empty one over the new tree's
coordinate accessors, so whatever the previous selection was, the state
handed to the DIRTY render the setter then triggers has an empty
selection. -/
theorem data_setter_clears_selection {T : Type} (st : ScatterState T)
    (data : List T) :
    (setData st data).1.selectionTree.data = [] ∧
      (setData st data).1.selectionTree.xfun = (setData st data).1.tree.xfun ∧
      (setData st data).1.selectionTree.yfun = (setData st data).1.tree.yfun ∧
      (setData st data).1.tree.data = data ∧
      (setData st data).2 = ERenderReason.DIRTY :=
  ⟨rfl, rfl, rfl, rfl, rfl⟩

/-- The range helper of getMouseNormalizedPos (part_000 lines 395-397):
the absolute span of a two-point array. -/
def rangeSpan (a b : ℚ) : ℚ := |b - a|

/-- computeClickRadius (unnamed part_000 lines 399-416): convert the fixed
pixel click radius into normalized-space radii, using the transform's
scale factor on the axes the zoom mask selects (1 elsewhere) and the
normalized-domain to pixel-range span ratio, read from the live transform
at query time. -/
def computeClickRadius {T : Type} (st : ScatterState T) : ℚ × ℚ :=
  let view := st.clickRadius
  let kX := if st.zoomMask = EScaleAxes.x ∨ st.zoomMask = EScaleAxes.xy then
    st.transform.k else 1
  let kY := if st.zoomMask = EScaleAxes.y ∨ st.zoomMask = EScaleAxes.xy then
    st.transform.k else 1
  let viewSizeX := kX * rangeSpan st.n2px.r0 st.n2px.r1
  let viewSizeY := kY * rangeSpan st.n2py.r0 st.n2py.r1
  let normalizedRangeX := rangeSpan st.n2px.d0 st.n2px.d1
  let normalizedRangeY := rangeSpan st.n2py.d0 st.n2py.d1
  (view / viewSizeX * normalizedRangeX, view / viewSizeY * normalizedRangeY)

/-- getMouseNormalizedPos (part_000 lines 392-420): invert the live
normalized-to-pixel scales at the mouse pixel position and compute the
click radii.  Modelled from the spec for the pixel position itself:
AScatterplot's mousePosAtCanvas is not under src/; the spec says the click
pixel position is inverted through the live scales. -/
def getMouseNormalizedPos {T : Type} (st : ScatterState T) (px py : ℚ) :
    (ℚ × ℚ) × ℚ × ℚ :=
  (((rescaleX st.zoomMask st.transform st.n2px).invert px,
      (rescaleY st.zoomMask st.transform st.n2py).invert py),
    computeClickRadius st)

/-- Modelled from the spec: ellipseTester of ./quadtree is not under src/;
spec 4.4: an ellipse test region around the click position, sized by the
click-radius conversion. -/
def ellipseContains (cx cy rx ry px py : ℚ) : Bool :=
  decide (((px - cx) / rx) ^ 2 + ((py - cy) / ry) ^ 2 ≤ 1)

/-- Modelled from the spec: findByTester of ./quadtree is not under src/;
spec 4.4: traverse the primary index with a containment test and collect
the matching items. -/
def findByTester {T : Type} (tree : BuiltTree T) (test : ℚ → ℚ → Bool) : List T :=
  tree.data.filter fun d => test (tree.xfun d) (tree.yfun d)

/-- onClick for the primary button (part_000 lines 478-488): hit-test the
primary tree with the ellipse around the normalized mouse position. -/
def onClick {T : Type} (st : ScatterState T) (px py : ℚ) : List T :=
  let m := getMouseNormalizedPos st px py
  findByTester st.tree (ellipseContains m.1.1 m.1.2 m.2.1 m.2.2)

/-- The click-scenario plot: dataset [(10,10), (90,90)] with linear
(identity-shape) domain scales over [0,100], aspect factor 1, click radius
10, identity zoom with mask xy, after construction (setData) and the first
DIRTY render against a 100 by 100 pixel canvas with no margin. -/
def clickDemoState : ScatterState (ℚ × ℚ) :=
  applyDirtyRanges
    (setData
      { x := Prod.fst
        y := Prod.snd
        xscale := { shape := fun v => v, d0 := 0, d1 := 100, r0 := 0, r1 := 1 }
        yscale := { shape := fun v => v, d0 := 0, d1 := 100, r0 := 0, r1 := 1 }
        n2px := (initialNormalized2Pixel 1).1
        n2py := (initialNormalized2Pixel 1).2
        zoomMask := EScaleAxes.xy
        transform := ⟨1, 0, 0⟩
        clickRadius := 10
        tree := { xfun := fun _ => 0, yfun := fun _ => 0, data := [] }
        selectionTree := { xfun := fun _ => 0, yfun := fun _ => 0, data := [] } }
      [(10, 10), (90, 90)]).1
    100 100

/-- C6 counterexample: in the claimed click scenario, a click at pixel
(10,10) inverts through the live scales -- whose y pixel range is
[100, 0], axis pointing down -- to normalized (10, 90), far outside the
radius-10 ellipse around either point, so the selection is empty rather
than [(10,10)]. -/
theorem click_at_pixel_10_10_selects_nothing :
    getMouseNormalizedPos clickDemoState 10 10 = ((10, 90), 10, 10) ∧
      onClick clickDemoState 10 10 = [] := by
  constructor
  · norm_num [getMouseNormalizedPos, computeClickRadius, rangeSpan, clickDemoState,
      applyDirtyRanges, setData, setDataImpl, initialNormalized2Pixel,
      DEFAULT_NORMALIZED_RANGE, ContinuousScale.copyWithRange, rescaleX, rescaleY,
      appliesToX, appliesToY, RescaledScale.invert, LinearScale.invert,
      abs_eq_max_neg, max_def]
  · norm_num [onClick, findByTester, ellipseContains, getMouseNormalizedPos,
      computeClickRadius, rangeSpan, clickDemoState, applyDirtyRanges, setData,
      setDataImpl, initialNormalized2Pixel, DEFAULT_NORMALIZED_RANGE,
      ContinuousScale.copyWithRange, ContinuousScale.apply, rescaleX, rescaleY,
      appliesToX, appliesToY, RescaledScale.invert, LinearScale.invert,
      abs_eq_max_neg, max_def, List.filter]

/-- C6 (amended): the click-radius conversion maps the fixed pixel radius r
to per-axis normalized radii r / (k_axis * pixelRangeSpan_axis) *
normalizedDomainSpan_axis, where k_axis is the transform's k exactly on
the axes the zoom mask selects and 1 otherwise, recomputed per query from
the live transform; and in the concrete scenario the click that selects
exactly [(10,10)] is at pixel (10, 90) -- the pixel where that point lies,
the y pixel axis pointing down. -/
theorem click_radius_conversion {T : Type} (st : ScatterState T) :
    computeClickRadius st =
        (st.clickRadius /
            ((if st.zoomMask = EScaleAxes.x ∨ st.zoomMask = EScaleAxes.xy then
                st.transform.k else 1) * |st.n2px.r1 - st.n2px.r0|) *
          |st.n2px.d1 - st.n2px.d0|,
          st.clickRadius /
            ((if st.zoomMask = EScaleAxes.y ∨ st.zoomMask = EScaleAxes.xy then
                st.transform.k else 1) * |st.n2py.r1 - st.n2py.r0|) *
          |st.n2py.d1 - st.n2py.d0|) ∧
      onClick clickDemoState 10 90 = [(10, 10)] := by
  constructor
  · rfl
  · norm_num [onClick, findByTester, ellipseContains, getMouseNormalizedPos,
      computeClickRadius, rangeSpan, clickDemoState, applyDirtyRanges, setData,
      setDataImpl, initialNormalized2Pixel, DEFAULT_NORMALIZED_RANGE,
      ContinuousScale.copyWithRange, ContinuousScale.apply, rescaleX, rescaleY,
      appliesToX, appliesToY, RescaledScale.invert, LinearScale.invert,
      abs_eq_max_neg, max_def, List.filter]

/-- The diff loop of the selection setter (src/src/index.ts lines 221-229):
for each newly assigned item, if it occurs in the snapshot s of the old
selection, splice its first occurrence out of the snapshot (mark as used);
otherwise add it to the selection tree and flag a change.  Returns the
tree, the leftover snapshot, and the changed flag. -/
def selLoop {T : Type} [DecidableEq T] :
    List T → List T → List T → Bool → List T × List T × Bool
  | [], tree, s, changed => (tree, s, changed)
  | n :: rest, tree, s, changed =>
    if n ∈ s then selLoop rest tree (s.erase n) changed
    else selLoop rest (tree ++ [n]) s true

/-- removeAll (d3-quadtree): remove each listed datum from the tree; a
datum not present is skipped. -/
def removeAll {T : Type} [DecidableEq T] : List T → List T → List T
  | tree, [] => tree
  | tree, n :: rest => removeAll (tree.erase n) rest

/-- The selection setter (src/src/index.ts lines 209-237), returning the
new selection index contents and whether a render was triggered: an empty
assignment clears wholesale (a no-op when already empty); otherwise the
setter diffs the assignment against the old selection, adds the unmatched
new items, removes the leftover old items, and renders only when the
changed flag or a leftover says something changed. -/
def setSelection {T : Type} [DecidableEq T] (cur sel : List T) : List T × Bool :=
  if sel = [] then
    if cur = [] then (cur, false) else ([], true)
  else
    let r := selLoop sel cur cur false
    (removeAll r.1 r.2.1, r.2.2 || !r.2.1.isEmpty)

theorem count_cons_alt {T : Type} [DecidableEq T] (a n : T) (l : List T) :
    (n :: l).count a = l.count a + if n = a then 1 else 0 := by
  by_cases h : n = a
  · subst h
    simp
  · simp [List.count_cons_of_ne (fun hh => h hh.symm), h]

theorem count_erase_alt {T : Type} [DecidableEq T] (a n : T) (l : List T) :
    (l.erase n).count a = l.count a - if n = a then 1 else 0 := by
  by_cases h : n = a
  · subst h
    simp [List.count_erase_self]
  · simp [List.count_erase_of_ne (fun hh => h hh.symm), h]

theorem selLoop_of_le {T : Type} [DecidableEq T] :
    ∀ (sel tree s : List T) (c : Bool),
      (∀ a, sel.count a ≤ s.count a) →
      (selLoop sel tree s c).1 = tree ∧ (selLoop sel tree s c).2.2 = c ∧
        ∀ a, (selLoop sel tree s c).2.1.count a = s.count a - sel.count a := by
  intro sel
  induction sel with
  | nil => intro tree s c _; simp [selLoop]
  | cons n rest ih =>
    intro tree s c h
    have hcn := h n
    rw [count_cons_alt, if_pos rfl] at hcn
    have hn : n ∈ s := List.count_pos_iff.mp (by omega)
    have hrest : ∀ a, rest.count a ≤ (s.erase n).count a := by
      intro a
      have hthis := h a
      rw [count_cons_alt] at hthis
      rw [count_erase_alt]
      by_cases hna : n = a
      · simp only [if_pos hna] at hthis ⊢
        omega
      · simp only [if_neg hna] at hthis ⊢
        omega
    obtain ⟨h1, h2, h3⟩ := ih tree (s.erase n) c hrest
    rw [selLoop, if_pos hn]
    refine ⟨h1, h2, fun a => ?_⟩
    rw [h3 a, count_erase_alt, count_cons_alt]
    by_cases hna : n = a
    · simp only [if_pos hna]
      omega
    · simp only [if_neg hna]
      omega

theorem selLoop_count {T : Type} [DecidableEq T] :
    ∀ (sel tree s : List T) (c : Bool) (a : T),
      (selLoop sel tree s c).1.count a = tree.count a + (sel.count a - s.count a) ∧
        (selLoop sel tree s c).2.1.count a = s.count a - sel.count a := by
  intro sel
  induction sel with
  | nil => intro tree s c a; simp [selLoop]
  | cons n rest ih =>
    intro tree s c a
    by_cases hn : n ∈ s
    · rw [selLoop, if_pos hn]
      obtain ⟨h1, h2⟩ := ih tree (s.erase n) c a
      have hpos : 1 ≤ s.count n := List.count_pos_iff.mpr hn
      rw [h1, h2, count_erase_alt, count_cons_alt]
      by_cases hna : n = a
      · subst hna
        rw [if_pos rfl]
        constructor <;> omega
      · simp only [if_neg hna]
        constructor <;> omega
    · rw [selLoop, if_neg hn]
      obtain ⟨h1, h2⟩ := ih (tree ++ [n]) s true a
      have hzero : s.count n = 0 := List.count_eq_zero.mpr hn
      rw [h1, h2, List.count_append, count_cons_alt, count_cons_alt, List.count_nil]
      by_cases hna : n = a
      · subst hna
        rw [if_pos rfl]
        constructor <;> omega
      · simp only [if_neg hna]
        constructor <;> omega

theorem selLoop_changed {T : Type} [DecidableEq T] :
    ∀ (sel tree s : List T) (c : Bool),
      ((selLoop sel tree s c).2.2 = true ↔
        (c = true ∨ ¬ ∀ a, sel.count a ≤ s.count a)) := by
  intro sel
  induction sel with
  | nil =>
    intro tree s c
    simp [selLoop]
  | cons n rest ih =>
    intro tree s c
    by_cases hn : n ∈ s
    · rw [selLoop, if_pos hn]
      rw [ih tree (s.erase n) c]
      have hpos : 1 ≤ s.count n := List.count_pos_iff.mpr hn
      have hiff : (∀ a, rest.count a ≤ (s.erase n).count a) ↔
          (∀ a, (n :: rest).count a ≤ s.count a) := by
        constructor
        · intro hr a
          have hra := hr a
          rw [count_erase_alt] at hra
          rw [count_cons_alt]
          by_cases hna : n = a
          · simp only [if_pos hna] at hra ⊢
            have hsa : s.count a = s.count n := by rw [hna]
            omega
          · simp only [if_neg hna] at hra ⊢
            omega
        · intro hr a
          have hra := hr a
          rw [count_cons_alt] at hra
          rw [count_erase_alt]
          by_cases hna : n = a
          · simp only [if_pos hna] at hra ⊢
            omega
          · simp only [if_neg hna] at hra ⊢
            omega
      rw [hiff]
    · rw [selLoop, if_neg hn]
      rw [ih (tree ++ [n]) s true]
      have hzero : s.count n = 0 := List.count_eq_zero.mpr hn
      have hnall : ¬ ∀ a, (n :: rest).count a ≤ s.count a := by
        intro hall
        have hcn := hall n
        rw [count_cons_alt, if_pos rfl] at hcn
        omega
      simp [hnall]

theorem removeAll_count {T : Type} [DecidableEq T] :
    ∀ (s tree : List T) (a : T),
      (removeAll tree s).count a = tree.count a - s.count a := by
  intro s
  induction s with
  | nil => intro tree a; simp [removeAll]
  | cons n rest ih =>
    intro tree a
    rw [removeAll, ih (tree.erase n) a, count_erase_alt, count_cons_alt]
    by_cases hna : n = a
    · simp only [if_pos hna]
      omega
    · simp only [if_neg hna]
      omega

theorem count_eq_nil {T : Type} [DecidableEq T] (l : List T)
    (h : ∀ a, l.count a = 0) : l = [] := by
  cases l with
  | nil => rfl
  | cons n rest =>
    have := h n
    simp only [List.count_cons_self] at this
    omega

/-- C5: the selection setter is idempotent and diff-based: assigning a
list with the same items (same multiset) as the current selection leaves
the selection index untouched and triggers no render; in general the new
index holds exactly the assigned items -- the setter only adds the
missing ones and removes the leftover ones, with clearing to empty the
sole wholesale rebuild -- and a render fires exactly when the item
multiset actually changed, so assigning the empty selection to an already
empty selection is a no-op. -/
theorem selection_setter_diffs {T : Type} [DecidableEq T] (cur sel : List T) :
    ((∀ a : T, sel.count a = cur.count a) → setSelection cur sel = (cur, false)) ∧
      (∀ a : T, (setSelection cur sel).1.count a = sel.count a) ∧
      ((setSelection cur sel).2 = true ↔ ¬ ∀ a : T, sel.count a = cur.count a) ∧
      setSelection cur ([] : List T) =
        (if cur = [] then (cur, false) else ([], true)) := by
  by_cases hsel : sel = []
  · subst hsel
    by_cases hcur : cur = []
    · subst hcur
      refine ⟨fun _ => rfl, by simp [setSelection], ?_, by simp [setSelection]⟩
      simp [setSelection]
    · refine ⟨?_, ?_, ?_, by simp [setSelection, hcur]⟩
      · intro h
        exact absurd (count_eq_nil cur fun a => ((h a).symm.trans (by simp))) hcur
      · intro a
        simp [setSelection, hcur]
      · simp only [setSelection, if_pos rfl, if_neg hcur]
        constructor
        · intro _ hall
          exact hcur (count_eq_nil cur fun a => ((hall a).symm.trans (by simp)))
        · intro _; rfl
  · have hunfold : setSelection cur sel =
        (removeAll (selLoop sel cur cur false).1 (selLoop sel cur cur false).2.1,
          (selLoop sel cur cur false).2.2 ||
            !(selLoop sel cur cur false).2.1.isEmpty) := by
      simp [setSelection, hsel]
    refine ⟨?_, ?_, ?_, by simp [setSelection, hsel]⟩
    · intro h
      have hle : ∀ a, sel.count a ≤ cur.count a := fun a => le_of_eq (h a)
      obtain ⟨h1, h2, h3⟩ := selLoop_of_le sel cur cur false hle
      have hnil : (selLoop sel cur cur false).2.1 = [] :=
        count_eq_nil _ fun a => by rw [h3 a, h a]; omega
      rw [hunfold, h1, hnil]
      simp [removeAll, h2]
    · intro a
      obtain ⟨h1, h2⟩ := selLoop_count sel cur cur false a
      rw [hunfold]
      simp only
      rw [removeAll_count, h1, h2]
      omega
    · rw [hunfold]
      simp only [Bool.or_eq_true, Bool.not_eq_true']
      rw [selLoop_changed sel cur cur false]
      have hleft : (selLoop sel cur cur false).2.1.isEmpty = false ↔
          ¬ ∀ a, cur.count a ≤ sel.count a := by
        rw [List.isEmpty_eq_false]
        constructor
        · intro hne hall
          refine hne (count_eq_nil _ fun a => ?_)
          have := (selLoop_count sel cur cur false a).2
          rw [this]
          have := hall a
          omega
        · intro hnall hne
          refine hnall fun a => ?_
          have := (selLoop_count sel cur cur false a).2
          rw [hne] at this
          simp at this
          omega
      rw [hleft]
      constructor
      · rintro (h | h) hall
        · rcases h with h | h
          · exact absurd h (by simp)
          · exact h fun a => le_of_eq (hall a)
        · exact h fun a => le_of_eq (hall a).symm
      · intro hne
        by_cases hab : ∀ a, sel.count a ≤ cur.count a
        · by_cases hba : ∀ a, cur.count a ≤ sel.count a
          · exact absurd (fun a => le_antisymm (hab a) (hba a)) hne
          · exact Or.inr hba
        · exact Or.inl (Or.inr hab)

theorem selection_setter_diffs_witness :
    (∀ a : ℕ, List.count a ([5, 7] : List ℕ) = List.count a [5, 7]) ∧
      setSelection ([5, 7] : List ℕ) [5, 7] = ([5, 7], false) :=
  ⟨fun _ => rfl, (selection_setter_diffs [5, 7] [5, 7]).1 fun _ => rfl⟩

end Datavisyn
